import Mathlib

/-!
# Verification of the ai-kit agent toolkit

A shallow embedding, in Lean 4, of the core of the `ai-kit` repository:

* the protocol-level run handler `handleAgentRun`
  (`src/agent/mcp/tools/agent.ts`) together with the reference JSONL
  persistence backend (idempotency records keyed by file name);
* the turn-based agent execution engine `ConversationalAgent.runLoop`
  (`src/agent/conversational.ts`) with its tool executor
  (`src/llm/tool/executor.ts`), hook runner (`src/agent/hooks.ts`) and
  message converter (`src/llm/tool/message-converter.ts`);
* the in-process MCP transport and the HTTP/SSE notification filter
  (`InProcessMcpTransport`, `extractNotificationToken`,
  `shouldForwardNotification` in the Hono mounting module).

JavaScript objects whose fields may be absent (`undefined`), `null`, a
string, or some other value are embedded as `JsonField`; the `??`
operator (which falls through on both `null` and `undefined`) is
`jfCoalesce`.  Machine behaviour that the claims treat as opaque (the
model-calling capability, the tools, the lifecycle hooks) is passed in
as explicit functional parameters, exactly where the TypeScript code
receives injected capabilities.
-/

/-! ## JavaScript field values

`JsonField` models the value found at one property of a
`Record<string, unknown>`: the property can be missing (`absent`,
i.e. `undefined` in JS), present and `null`, present with a string
value, or present with any other (non-string, non-null) value. -/

inductive JsonField where
  | absent
  | nullv
  | str (s : String)
  | other
deriving DecidableEq, Repr

/-- JS `a ?? b`: falls through to `b` when `a` is `null` or `undefined`. -/
def jfCoalesce : JsonField → JsonField → JsonField
  | .absent, b => b
  | .nullv, b => b
  | a, _ => a

/-- `stringOrUndefined` from `src/agent/mcp/tools/agent.ts`:
`typeof value === "string" ? value : undefined`. -/
def stringOrUndefined : JsonField → Option String
  | .str s => some s
  | _ => none

/-! ## Wire result of `agent.run`

`RawRecord` holds exactly the properties `toAgentRunWireResult` reads
from its `Record<string, unknown>` argument (camelCase and snake_case
variants).  `WireResult` is the fixed-shape object it returns. -/

structure RawRecord where
  sessionId : JsonField := .absent
  session_id : JsonField := .absent
  runId : JsonField := .absent
  run_id : JsonField := .absent
  turnId : JsonField := .absent
  turn_id : JsonField := .absent
  responseId : JsonField := .absent
  response_id : JsonField := .absent
  message : JsonField := .absent
  agentId : JsonField := .absent
  agent_id : JsonField := .absent
  idempotencyKey : JsonField := .absent
  idempotency_key : JsonField := .absent
  notificationToken : JsonField := .absent
  notification_token : JsonField := .absent
  errorMessage : JsonField := .absent
  error_message : JsonField := .absent
  status : JsonField := .absent
deriving DecidableEq, Repr

/-- The wire payload returned by `agent.run`.  `none` renders as JSON
`null`; `status` and `message` are always strings in the output. -/
structure WireResult where
  sessionId : Option String
  runId : Option String
  turnId : Option String
  status : String
  responseId : Option String
  message : String
  agentId : Option String
  idempotencyKey : Option String
  notificationToken : Option String
  errorMessage : Option String
deriving DecidableEq, Repr

/-- `toAgentRunWireResult` from `src/agent/mcp/tools/agent.ts`. -/
def toAgentRunWireResult (source : RawRecord) : WireResult :=
  { sessionId := stringOrUndefined (jfCoalesce source.sessionId source.session_id)
    runId := stringOrUndefined (jfCoalesce source.runId source.run_id)
    turnId := stringOrUndefined (jfCoalesce source.turnId source.turn_id)
    responseId := stringOrUndefined (jfCoalesce source.responseId source.response_id)
    message := (stringOrUndefined source.message).getD ""
    agentId := stringOrUndefined (jfCoalesce source.agentId source.agent_id)
    idempotencyKey :=
      stringOrUndefined (jfCoalesce source.idempotencyKey source.idempotency_key)
    notificationToken :=
      stringOrUndefined (jfCoalesce source.notificationToken source.notification_token)
    errorMessage :=
      stringOrUndefined (jfCoalesce source.errorMessage source.error_message)
    status := (stringOrUndefined source.status).getD "error" }

/-- A JSON `null`-or-string field, as it appears after a `WireResult`
is serialized with `JSON.stringify` and parsed back. -/
def optToField : Option String → JsonField
  | some s => .str s
  | none => .nullv

/-- The `Record<string, unknown>` obtained by reading a stored
`WireResult` back from its JSON serialization (the idempotency file):
every camelCase key is present (string or `null`), no snake_case key
exists. -/
def wireResultToRecord (w : WireResult) : RawRecord :=
  { sessionId := optToField w.sessionId
    runId := optToField w.runId
    turnId := optToField w.turnId
    responseId := optToField w.responseId
    message := .str w.message
    agentId := optToField w.agentId
    idempotencyKey := optToField w.idempotencyKey
    notificationToken := optToField w.notificationToken
    errorMessage := optToField w.errorMessage
    status := .str w.status }

theorem stringOrUndefined_coalesce_optToField (o : Option String) :
    stringOrUndefined (jfCoalesce (optToField o) .absent) = o := by
  cases o <;> rfl

theorem stringOrUndefined_str (s : String) :
    stringOrUndefined (.str s) = some s := rfl

/-- Re-normalizing a stored wire payload returns it unchanged: this is
the replay path of the idempotency check. -/
theorem toAgentRunWireResult_roundtrip (w : WireResult) :
    toAgentRunWireResult (wireResultToRecord w) = w := by
  cases w
  simp only [toAgentRunWireResult, wireResultToRecord,
    stringOrUndefined_coalesce_optToField, stringOrUndefined_str,
    Option.getD_some]

/-! ## Run handler (`agent.run`)

`handleAgentRun` from `src/agent/mcp/tools/agent.ts`, composed with the
reference JSONL persistence backend (`JsonlMcpPersistence`), whose
idempotency records live one file per key: its
`readIdempotencyRecord(key, _sessionId, _agentId)` reads
`idempotency/<key>.json` and ignores the session and agent arguments.

The agent created by the registry entry is opaque to the handler; it is
embedded as an `AgentBehavior` per agent id.  Random ids
(`crypto.randomUUID()`) and clock reads (`new Date().toISOString()`)
are threaded in as parameters. -/

/-- One normalized agent stream event (the subset of `LLMStreamEvent`
that `forwardStreamEvent` inspects). -/
inductive AEvent where
  | textDelta (delta : String)
  | reasoningDelta (delta : String)
  | toolCallArgsDone (name : String) (toolCallId : String) (args : String)
  | responseCompleted (content : Option String) (responseId : Option String)
  | otherEvent
deriving DecidableEq, Repr

/-- Protocol notifications sent over `agent/stream-response`. -/
inductive HNotif where
  | started (sessionId runId agentId : String)
  | textDelta (delta : String)
  | reasoningDelta (delta : String)
  | toolCall (summary toolCallId args : String)
  | textResult (responseId : Option String)
  | cumulativeCost (amount : Nat)
  | finished (sessionId runId agentId : String)
  | errored (sessionId runId agentId : String)
deriving DecidableEq, Repr

/-- `forwardStreamEvent` from `src/agent/mcp/tools/agent.ts`: the fixed
mapping of engine events to notifications (all other kinds dropped).
A `response.completed` event notifies only when its content is truthy
(a non-empty string). -/
def forwardStreamEvent : AEvent → Option HNotif
  | .textDelta d => some (.textDelta d)
  | .reasoningDelta d => some (.reasoningDelta d)
  | .toolCallArgsDone name toolCallId args => some (.toolCall name toolCallId args)
  | .responseCompleted content responseId =>
      match content with
      | some c => if c.isEmpty then none else some (.textResult responseId)
      | none => none
  | .otherEvent => none

/-- Terminal outcome of one agent run, as the handler observes it:
either the `AgentResult` fields it reads, or a thrown error (embedded
by its `.message`).  A failing stream still yields the events produced
before the throw. -/
inductive AgentBehavior where
  | success (events : List AEvent) (content : Option String)
      (responseId : Option String) (totalCost : Nat)
  | failure (events : List AEvent) (errorMessage : String)

/-- The `AgentRunResult` record built inside `handleAgentRun`. -/
structure AgentRunResult where
  sessionId : String
  runId : String
  turnId : String
  status : String
  responseId : Option String
  message : String
  agentId : String
  idempotencyKey : Option String
  errorMessage : Option String
deriving DecidableEq, Repr

/-- A property that is `undefined` when the option is `none` (the JS
object literal simply lacks a usable value there). -/
def undefOptToField : Option String → JsonField
  | some s => .str s
  | none => .absent

/-- The `AgentRunResult` viewed as the `Record<string, unknown>` that
`toAgentRunWireResult` receives. -/
def agentRunResultToRecord (r : AgentRunResult) : RawRecord :=
  { sessionId := .str r.sessionId
    runId := .str r.runId
    turnId := .str r.turnId
    status := .str r.status
    responseId := undefOptToField r.responseId
    message := .str r.message
    agentId := .str r.agentId
    idempotencyKey := undefOptToField r.idempotencyKey
    errorMessage := undefOptToField r.errorMessage }

/-- Stored idempotency record (`IdempotencyRecord` in
`src/agent/mcp/persistence.ts`); `result` is the wire payload as it
reads back from JSON. -/
structure IdemRecord where
  idempotencyKey : String
  sessionId : String
  runId : String
  status : String
  result : RawRecord
  agentId : String
  createdAt : String
deriving DecidableEq, Repr

/-- Run state record (protocol layer). -/
structure RunStateRec where
  runId : String
  turnId : String
  status : String
  startedAt : String
  updatedAt : String
  userMessage : Option String
  assistantMessage : Option String
  agentId : String
deriving DecidableEq, Repr

/-- Conversation turn record (protocol layer). -/
structure ConvTurnRec where
  turnId : String
  runId : String
  timestamp : String
  userMessage : String
  assistantMessage : String
  status : String
  errorMessage : Option String
  agentId : String
deriving DecidableEq, Repr

/-- The observable persistence state: idempotency files (JSONL backend:
one file per key, newest write wins, so a fresh write is consed in
front for lookup), plus the append-only ledgers. -/
structure PState where
  idem : List (String × IdemRecord) := []
  runStates : List (String × RunStateRec) := []
  convTurns : List (String × ConvTurnRec) := []
  inputHistory : List (String × String × String) := []
  usage : List (Nat × String × String × String) := []
deriving Repr

/-- `JsonlMcpPersistence.readIdempotencyRecord`: keyed by the
idempotency key alone; the `_sessionId` and `_agentId` arguments are
ignored. -/
def readIdempotencyRecord (st : PState) (key : String)
    (_sessionId : String) (_agentId : String) : Option IdemRecord :=
  st.idem.lookup key

/-- `JsonlMcpPersistence.writeIdempotencyRecord`: overwrites the file
for the record's key. -/
def writeIdempotencyRecord (st : PState) (rec : IdemRecord) : PState :=
  { st with idem := (rec.idempotencyKey, rec) :: st.idem }

/-- Agent registry model: registered ids and the default. -/
structure RegistryM where
  agentIds : List String
  defaultAgentId : Option String

/-- `AgentRegistry.resolveAgentId`: a truthy requested id must be
registered; otherwise fall back to a truthy default. -/
def resolveAgentId (reg : RegistryM) (requested : Option String) :
    Except String String :=
  match requested with
  | some a =>
      if a = "" then
        match reg.defaultAgentId with
        | some d => if d = "" then .error "No agents registered" else .ok d
        | none => .error "No agents registered"
      else if reg.agentIds.contains a then .ok a
      else .error ("Agent not found: " ++ a)
  | none =>
      match reg.defaultAgentId with
      | some d => if d = "" then .error "No agents registered" else .ok d
      | none => .error "No agents registered"

/-- Input parameters of the `agent.run` tool (`AgentRunParamsSchema`). -/
structure RunParams where
  message : String
  idempotencyKey : Option String := none
  sessionId : Option String := none
  title : Option String := none
  agentId : Option String := none
  stream : Option Bool := none

/-- Injected collaborators of `handleAgentRun`. -/
structure HDeps where
  registry : RegistryM
  hasSendNotification : Bool
  behavior : String → AgentBehavior

/-- The ids generated inside one `handleAgentRun` call
(`crypto.randomUUID()`). -/
structure GenIds where
  genSessionId : String
  runId : String
  turnId : String

/-- What one `handleAgentRun` call returns and did: the wire payload,
its serialized `text` body, the `isError` flag, the number of times an
agent was actually created and executed, and the notifications sent. -/
structure HOutcome where
  payload : WireResult
  isError : Bool
  execCount : Nat
  notifications : List HNotif
deriving Repr

/-- Append one run-state record to the session's ledger. -/
def appendRunState (st : PState) (sessionId : String) (rec : RunStateRec) : PState :=
  { st with runStates := st.runStates ++ [(sessionId, rec)] }

/-- Append one conversation turn to the session's record file. -/
def appendConvTurn (st : PState) (sessionId : String) (rec : ConvTurnRec) : PState :=
  { st with convTurns := st.convTurns ++ [(sessionId, rec)] }

/-- Append one entry to the input-message history ledger. -/
def appendInputHistory (st : PState) (message sessionId runId : String) : PState :=
  { st with inputHistory := st.inputHistory ++ [(message, sessionId, runId)] }

/-- Append one usage entry. -/
def appendUsage (st : PState) (amount : Nat) (currency sessionId runId : String) :
    PState :=
  { st with usage := st.usage ++ [(amount, currency, sessionId, runId)] }

/-- The non-replay path of `handleAgentRun`: record the started run
state, notify, record input history, run the agent (streamed or
buffered), persist the conversation turn and terminal run state, and
write the idempotency record when a truthy key was supplied.  A thrown
agent error is caught and converted into a `status: error` payload. -/
def runFreshAgent (deps : HDeps) (params : RunParams)
    (agentId sessionId runId turnId : String) (keyOpt : Option String)
    (now : String) (st : PState) : HOutcome × PState :=
  let streaming := params.stream.getD false && deps.hasSendNotification
  let startedAt := now
  let st1 := appendRunState st sessionId
    { runId := runId, turnId := turnId, status := "started",
      startedAt := startedAt, updatedAt := startedAt,
      userMessage := some params.message, assistantMessage := none,
      agentId := agentId }
  let startNotifs : List HNotif :=
    if streaming then [.started sessionId runId agentId] else []
  let st2 := appendInputHistory st1 params.message sessionId runId
  match deps.behavior agentId with
  | .success events content responseId totalCost =>
      let eventNotifs :=
        if streaming then events.filterMap forwardStreamEvent else []
      let result : AgentRunResult :=
        { sessionId := sessionId, runId := runId, turnId := turnId,
          status := "success", responseId := responseId,
          message := content.getD "", agentId := agentId,
          idempotencyKey := params.idempotencyKey, errorMessage := none }
      let st3 :=
        if totalCost > 0 then appendUsage st2 totalCost "usd" sessionId runId
        else st2
      let costNotifs :=
        if totalCost > 0 && streaming then [HNotif.cumulativeCost totalCost]
        else []
      let finishNotifs :=
        if streaming then [HNotif.finished sessionId runId agentId] else []
      let st4 := appendConvTurn st3 sessionId
        { turnId := turnId, runId := runId, timestamp := now,
          userMessage := params.message, assistantMessage := result.message,
          status := "success", errorMessage := none, agentId := agentId }
      let st5 := appendRunState st4 sessionId
        { runId := runId, turnId := turnId, status := "success",
          startedAt := startedAt, updatedAt := now,
          userMessage := some params.message,
          assistantMessage := some result.message, agentId := agentId }
      let payload := toAgentRunWireResult (agentRunResultToRecord result)
      let st6 :=
        match keyOpt with
        | some key => writeIdempotencyRecord st5
            { idempotencyKey := key, sessionId := sessionId, runId := runId,
              status := result.status, result := wireResultToRecord payload,
              agentId := agentId, createdAt := now }
        | none => st5
      ({ payload := payload, isError := result.status == "error",
         execCount := 1,
         notifications := startNotifs ++ eventNotifs ++ costNotifs ++ finishNotifs },
       st6)
  | .failure events errMsg =>
      let eventNotifs :=
        if streaming then events.filterMap forwardStreamEvent else []
      let result : AgentRunResult :=
        { sessionId := sessionId, runId := runId, turnId := turnId,
          status := "error", responseId := none, message := "",
          agentId := agentId, idempotencyKey := params.idempotencyKey,
          errorMessage := some errMsg }
      let st3 := appendConvTurn st2 sessionId
        { turnId := turnId, runId := runId, timestamp := now,
          userMessage := params.message, assistantMessage := "",
          status := "error", errorMessage := some errMsg, agentId := agentId }
      let st4 := appendRunState st3 sessionId
        { runId := runId, turnId := turnId, status := "error",
          startedAt := startedAt, updatedAt := now,
          userMessage := some params.message, assistantMessage := none,
          agentId := agentId }
      let errNotifs :=
        if streaming then [HNotif.errored sessionId runId agentId] else []
      let payload := toAgentRunWireResult (agentRunResultToRecord result)
      let st5 :=
        match keyOpt with
        | some key => writeIdempotencyRecord st4
            { idempotencyKey := key, sessionId := sessionId, runId := runId,
              status := result.status, result := wireResultToRecord payload,
              agentId := agentId, createdAt := now }
        | none => st4
      ({ payload := payload, isError := result.status == "error",
         execCount := 1,
         notifications := startNotifs ++ eventNotifs ++ errNotifs },
       st5)

/-- JS truthiness of the optional idempotency key: `if (idempotencyKey)`
skips both a missing key and an empty-string key. -/
def truthyKey : Option String → Option String
  | some k => if k = "" then none else some k
  | none => none

/-- `handleAgentRun` from `src/agent/mcp/tools/agent.ts`.  The
`Except.error` case models the handler itself throwing, which only the
agent-id resolution can cause; everything past the idempotency check is
the caught region.  A truthy idempotency key with an existing record
replays the stored wire result verbatim and runs nothing. -/
def handleAgentRun (deps : HDeps) (params : RunParams) (ids : GenIds)
    (now : String) (st : PState) : Except String (HOutcome × PState) := do
  let agentId ← resolveAgentId deps.registry params.agentId
  let sessionId := params.sessionId.getD ids.genSessionId
  let keyOpt := truthyKey params.idempotencyKey
  match keyOpt with
  | some key =>
      match readIdempotencyRecord st key sessionId agentId with
      | some existing =>
          let payload := toAgentRunWireResult existing.result
          return ({ payload := payload, isError := payload.status == "error",
                    execCount := 0, notifications := [] }, st)
      | none =>
          return runFreshAgent deps params agentId sessionId ids.runId ids.turnId
            keyOpt now st
  | none =>
      return runFreshAgent deps params agentId sessionId ids.runId ids.turnId
        keyOpt now st

/-! ## Serialized wire payload

`JSON.stringify(payload, null, 2)` over a `WireResult` is a fixed-shape
deterministic rendering (object-literal key order, 2-space indent);
byte identity of the `text` content is therefore exactly structural
equality of the payloads.  String escaping beyond quote and backslash
is omitted: it is a deterministic character-wise map and does not
affect any equality proved here. -/

def jsEscapeChar (c : Char) : String :=
  if c = '\"' then "\\\"" else if c = '\\' then "\\\\" else String.singleton c

def jsonString (s : String) : String :=
  "\"" ++ String.join (s.toList.map jsEscapeChar) ++ "\""

def jsonOptString : Option String → String
  | some s => jsonString s
  | none => "null"

/-- The `text` body of the `agent.run` result:
`JSON.stringify(payload, null, 2)`. -/
def wireResultText (w : WireResult) : String :=
  "\x7b\n" ++ String.intercalate ",\n"
    [ "  \"sessionId\": " ++ jsonOptString w.sessionId,
      "  \"runId\": " ++ jsonOptString w.runId,
      "  \"turnId\": " ++ jsonOptString w.turnId,
      "  \"status\": " ++ jsonString w.status,
      "  \"responseId\": " ++ jsonOptString w.responseId,
      "  \"message\": " ++ jsonString w.message,
      "  \"agentId\": " ++ jsonOptString w.agentId,
      "  \"idempotencyKey\": " ++ jsonOptString w.idempotencyKey,
      "  \"notificationToken\": " ++ jsonOptString w.notificationToken,
      "  \"errorMessage\": " ++ jsonOptString w.errorMessage ]
  ++ "\n\x7d"

@[simp] theorem appendRunState_idem (st : PState) (s : String) (r : RunStateRec) :
    (appendRunState st s r).idem = st.idem := rfl

@[simp] theorem appendConvTurn_idem (st : PState) (s : String) (r : ConvTurnRec) :
    (appendConvTurn st s r).idem = st.idem := rfl

@[simp] theorem appendInputHistory_idem (st : PState) (m s r : String) :
    (appendInputHistory st m s r).idem = st.idem := rfl

@[simp] theorem appendUsage_idem (st : PState) (n : Nat) (c s r : String) :
    (appendUsage st n c s r).idem = st.idem := rfl

/-- Every branch of the non-replay path executes the agent exactly
once. -/
theorem runFreshAgent_execCount (deps : HDeps) (params : RunParams)
    (a s r t : String) (keyOpt : Option String) (now : String) (st : PState) :
    (runFreshAgent deps params a s r t keyOpt now st).1.execCount = 1 := by
  cases hb : deps.behavior a <;> simp [runFreshAgent, hb]

/-- The terminal `AgentRunResult.status` a behavior produces. -/
def AgentBehavior.statusString : AgentBehavior → String
  | .success _ _ _ _ => "success"
  | .failure _ _ => "error"

/-- With a truthy key and no prior record, the non-replay path writes
an idempotency record for that key whose stored `result` is the JSON
image of the returned payload. -/
theorem runFreshAgent_writes_idem (deps : HDeps) (params : RunParams)
    (a s r t : String) (key : String) (now : String) (st : PState) :
    (runFreshAgent deps params a s r t (some key) now st).2.idem
      = (key,
         { idempotencyKey := key, sessionId := s, runId := r,
           status := (deps.behavior a).statusString,
           result := wireResultToRecord
             (runFreshAgent deps params a s r t (some key) now st).1.payload,
           agentId := a, createdAt := now }) :: st.idem := by
  cases hb : deps.behavior a with
  | success ev c rid cost =>
      by_cases hc : cost > 0 <;>
        simp [runFreshAgent, hb, hc, writeIdempotencyRecord,
          AgentBehavior.statusString]
  | failure ev m =>
      simp [runFreshAgent, hb, writeIdempotencyRecord,
        AgentBehavior.statusString]

/-- With a truthy key and no stored record, `handleAgentRun` takes the
non-replay path. -/
theorem handleAgentRun_fresh (deps : HDeps) (params : RunParams) (ids : GenIds)
    (now : String) (st : PState) (k agentId : String)
    (hres : resolveAgentId deps.registry params.agentId = .ok agentId)
    (hkey : truthyKey params.idempotencyKey = some k)
    (hfresh : st.idem.lookup k = none) :
    handleAgentRun deps params ids now st
      = .ok (runFreshAgent deps params agentId
          (params.sessionId.getD ids.genSessionId) ids.runId ids.turnId
          (some k) now st) := by
  simp [handleAgentRun, hres, hkey, readIdempotencyRecord, hfresh]

/-- With a truthy key and a stored record, `handleAgentRun` replays the
stored wire result and runs nothing. -/
theorem handleAgentRun_replay (deps : HDeps) (params : RunParams) (ids : GenIds)
    (now : String) (st : PState) (k agentId : String) (rec : IdemRecord)
    (hres : resolveAgentId deps.registry params.agentId = .ok agentId)
    (hkey : truthyKey params.idempotencyKey = some k)
    (hrec : st.idem.lookup k = some rec) :
    handleAgentRun deps params ids now st
      = .ok ({ payload := toAgentRunWireResult rec.result,
               isError := (toAgentRunWireResult rec.result).status == "error",
               execCount := 0, notifications := [] }, st) := by
  simp [handleAgentRun, hres, hkey, readIdempotencyRecord, hrec]

/-- Without a truthy key, `handleAgentRun` always takes the non-replay
path. -/
theorem handleAgentRun_no_key (deps : HDeps) (params : RunParams) (ids : GenIds)
    (now : String) (st : PState) (agentId : String)
    (hres : resolveAgentId deps.registry params.agentId = .ok agentId)
    (hkey : truthyKey params.idempotencyKey = none) :
    handleAgentRun deps params ids now st
      = .ok (runFreshAgent deps params agentId
          (params.sessionId.getD ids.genSessionId) ids.runId ids.turnId
          none now st) := by
  simp [handleAgentRun, hres, hkey]

/-- C1.  Two sequential `agent.run` invocations with the same (truthy)
idempotency key, session id and agent id: the second returns the same
wire payload byte for byte (`wireResultText`, the serialized `text`
body, coincides because the payloads are equal), the first call runs
the agent exactly once and the second runs it not at all. -/
theorem agent_run_idempotent_replay (deps : HDeps) (p1 p2 : RunParams)
    (ids1 ids2 : GenIds) (now1 now2 : String) (st : PState) (k agentId : String)
    (hres : resolveAgentId deps.registry p1.agentId = .ok agentId)
    (hkey1 : p1.idempotencyKey = some k) (hkey2 : p2.idempotencyKey = some k)
    (hk : ¬ k = "")
    (hsession : p2.sessionId = p1.sessionId) (hagent : p2.agentId = p1.agentId)
    (hfresh : st.idem.lookup k = none) :
    ∃ o1 st1 o2 st2,
      handleAgentRun deps p1 ids1 now1 st = .ok (o1, st1) ∧
      handleAgentRun deps p2 ids2 now2 st1 = .ok (o2, st2) ∧
      wireResultText o2.payload = wireResultText o1.payload ∧
      o2.payload = o1.payload ∧
      o1.execCount = 1 ∧ o2.execCount = 0 := by
  have htk1 : truthyKey p1.idempotencyKey = some k := by simp [truthyKey, hkey1, hk]
  have htk2 : truthyKey p2.idempotencyKey = some k := by simp [truthyKey, hkey2, hk]
  have h1 := handleAgentRun_fresh deps p1 ids1 now1 st k agentId hres htk1 hfresh
  set pr := runFreshAgent deps p1 agentId (p1.sessionId.getD ids1.genSessionId)
    ids1.runId ids1.turnId (some k) now1 st with hpr
  have hidem := runFreshAgent_writes_idem deps p1 agentId
    (p1.sessionId.getD ids1.genSessionId) ids1.runId ids1.turnId k now1 st
  rw [← hpr] at hidem
  have hlookup : pr.2.idem.lookup k
      = some { idempotencyKey := k, sessionId := p1.sessionId.getD ids1.genSessionId,
               runId := ids1.runId, status := (deps.behavior agentId).statusString,
               result := wireResultToRecord pr.1.payload,
               agentId := agentId, createdAt := now1 } := by
    rw [hidem]; simp [List.lookup]
  have h2 := handleAgentRun_replay deps p2 ids2 now2 pr.2 k agentId _
    (by rw [hagent]; exact hres) htk2 hlookup
  refine ⟨pr.1, pr.2, _, pr.2, h1, h2, ?_, ?_, ?_, rfl⟩
  · simp [toAgentRunWireResult_roundtrip]
  · simp [toAgentRunWireResult_roundtrip]
  · exact runFreshAgent_execCount deps p1 agentId
      (p1.sessionId.getD ids1.genSessionId) ids1.runId ids1.turnId (some k) now1 st

/-- Effects of the non-replay path when the agent throws: no error
escapes, the payload carries `status: "error"` with the thrown message,
and an error conversation turn plus an error run state (after the
started one) are persisted. -/
theorem runFreshAgent_failure_effects (deps : HDeps) (params : RunParams)
    (a s r t : String) (keyOpt : Option String) (now : String) (st : PState)
    (ev : List AEvent) (m : String)
    (hb : deps.behavior a = .failure ev m) :
    (runFreshAgent deps params a s r t keyOpt now st).1.payload.status = "error" ∧
    (runFreshAgent deps params a s r t keyOpt now st).1.payload.errorMessage = some m ∧
    (runFreshAgent deps params a s r t keyOpt now st).1.isError = true ∧
    (runFreshAgent deps params a s r t keyOpt now st).2.convTurns
      = st.convTurns ++
        [(s, { turnId := t, runId := r, timestamp := now,
               userMessage := params.message, assistantMessage := "",
               status := "error", errorMessage := some m, agentId := a })] ∧
    (runFreshAgent deps params a s r t keyOpt now st).2.runStates
      = st.runStates ++
        [(s, { runId := r, turnId := t, status := "started", startedAt := now,
               updatedAt := now, userMessage := some params.message,
               assistantMessage := none, agentId := a }),
         (s, { runId := r, turnId := t, status := "error", startedAt := now,
               updatedAt := now, userMessage := some params.message,
               assistantMessage := none, agentId := a })] := by
  cases keyOpt <;>
    simp [runFreshAgent, hb, appendConvTurn, appendRunState,
      appendInputHistory, writeIdempotencyRecord, toAgentRunWireResult,
      agentRunResultToRecord, stringOrUndefined, jfCoalesce, undefOptToField]

/-- C2.  When the agent execution throws (and no idempotency replay
applies), the run handler catches the error: it returns normally with a
`status: "error"` payload whose `errorMessage` is the thrown message
and whose result is error-flagged, after persisting an error-status
conversation turn and an error-status run state. -/
theorem agent_run_error_contained (deps : HDeps) (params : RunParams)
    (ids : GenIds) (now : String) (st : PState) (agentId : String)
    (ev : List AEvent) (errMsg : String)
    (hres : resolveAgentId deps.registry params.agentId = .ok agentId)
    (hbeh : deps.behavior agentId = .failure ev errMsg)
    (hnorep : ∀ kk, truthyKey params.idempotencyKey = some kk →
      st.idem.lookup kk = none) :
    ∃ o st2,
      handleAgentRun deps params ids now st = .ok (o, st2) ∧
      o.payload.status = "error" ∧
      o.payload.errorMessage = some errMsg ∧
      o.isError = true ∧
      (∃ ct : ConvTurnRec,
        st2.convTurns
          = st.convTurns ++ [(params.sessionId.getD ids.genSessionId, ct)] ∧
        ct.status = "error" ∧ ct.errorMessage = some errMsg) ∧
      (∃ rs1 rs2 : RunStateRec,
        st2.runStates
          = st.runStates ++ [(params.sessionId.getD ids.genSessionId, rs1),
                             (params.sessionId.getD ids.genSessionId, rs2)] ∧
        rs2.status = "error") := by
  cases hko : truthyKey params.idempotencyKey with
  | none =>
      rw [handleAgentRun_no_key deps params ids now st agentId hres hko]
      obtain ⟨h1, h2, h3, h4, h5⟩ := runFreshAgent_failure_effects deps params
        agentId (params.sessionId.getD ids.genSessionId) ids.runId ids.turnId
        none now st ev errMsg hbeh
      exact ⟨_, _, rfl, h1, h2, h3, ⟨_, h4, rfl, rfl⟩, ⟨_, _, h5, rfl⟩⟩
  | some kk =>
      rw [handleAgentRun_fresh deps params ids now st kk agentId hres hko
        (hnorep kk hko)]
      obtain ⟨h1, h2, h3, h4, h5⟩ := runFreshAgent_failure_effects deps params
        agentId (params.sessionId.getD ids.genSessionId) ids.runId ids.turnId
        (some kk) now st ev errMsg hbeh
      exact ⟨_, _, rfl, h1, h2, h3, ⟨_, h4, rfl, rfl⟩, ⟨_, _, h5, rfl⟩⟩

/-! ### Concrete fixtures for the run handler -/

/-- A registry with one agent `"a"` whose run succeeds with content
`"ok"`. -/
def fixDeps : HDeps :=
  { registry := { agentIds := ["a"], defaultAgentId := some "a" },
    hasSendNotification := false,
    behavior := fun _ => .success [] (some "ok") none 0 }

/-- A registry with one agent `"a"` whose run throws `"LLM failed"`. -/
def fixFailDeps : HDeps :=
  { registry := { agentIds := ["a"], defaultAgentId := some "a" },
    hasSendNotification := false,
    behavior := fun _ => .failure [] "LLM failed" }

def fixParams : RunParams :=
  { message := "hello", idempotencyKey := some "k",
    sessionId := some "s", agentId := some "a" }

def fixIds1 : GenIds := { genSessionId := "g1", runId := "r1", turnId := "u1" }

def fixIds2 : GenIds := { genSessionId := "g2", runId := "r2", turnId := "u2" }

/-- Witness for C1 at a concrete registry, parameter set and store. -/
theorem agent_run_idempotent_replay_witness :
    ∃ o1 st1 o2 st2,
      handleAgentRun fixDeps fixParams fixIds1 "t1" {} = .ok (o1, st1) ∧
      handleAgentRun fixDeps fixParams fixIds2 "t2" st1 = .ok (o2, st2) ∧
      wireResultText o2.payload = wireResultText o1.payload ∧
      o2.payload = o1.payload ∧
      o1.execCount = 1 ∧ o2.execCount = 0 :=
  agent_run_idempotent_replay fixDeps fixParams fixParams fixIds1 fixIds2
    "t1" "t2" {} "k" "a" rfl rfl rfl (by decide) rfl rfl rfl

/-- Witness for C2 at a concrete failing agent. -/
theorem agent_run_error_contained_witness :
    ∃ o st2,
      handleAgentRun fixFailDeps fixParams fixIds1 "t1" {} = .ok (o, st2) ∧
      o.payload.status = "error" ∧
      o.payload.errorMessage = some "LLM failed" ∧
      o.isError = true ∧
      (∃ ct : ConvTurnRec,
        st2.convTurns
          = ({} : PState).convTurns ++ [(fixParams.sessionId.getD fixIds1.genSessionId, ct)] ∧
        ct.status = "error" ∧ ct.errorMessage = some "LLM failed") ∧
      (∃ rs1 rs2 : RunStateRec,
        st2.runStates
          = ({} : PState).runStates ++ [(fixParams.sessionId.getD fixIds1.genSessionId, rs1),
                             (fixParams.sessionId.getD fixIds1.genSessionId, rs2)] ∧
        rs2.status = "error") :=
  agent_run_error_contained fixFailDeps fixParams fixIds1 "t1" {} "a" [] "LLM failed"
    rfl rfl (by intro kk hkk; rfl)

/-! ### Idempotency scoping (C9)

`handleAgentRun` passes the session and agent ids to
`readIdempotencyRecord`, but the reference JSONL backend ignores them:
the record file is addressed by the key alone.  A second invocation
with the same key and a different session id therefore still replays
the stored record. -/

def c9ParamsSession1 : RunParams :=
  { message := "hello", idempotencyKey := some "k",
    sessionId := some "s1", agentId := some "a" }

def c9ParamsSession2 : RunParams :=
  { message := "hello", idempotencyKey := some "k",
    sessionId := some "s2", agentId := some "a" }

/-- First invocation: session `"s1"`, key `"k"`, empty store. -/
def c9FirstRun : Except String (HOutcome × PState) :=
  handleAgentRun fixDeps c9ParamsSession1 fixIds1 "t1" {}

/-- Second invocation: same key `"k"` but session `"s2"`, against the
store left by the first invocation. -/
def c9SecondRun : Except String (HOutcome × PState) :=
  match c9FirstRun with
  | .ok (_, st1) => handleAgentRun fixDeps c9ParamsSession2 fixIds2 "t2" st1
  | .error e => .error e

def c9FirstPayload : Option WireResult :=
  match c9FirstRun with
  | .ok (o, _) => some o.payload
  | .error _ => none

def c9SecondPayload : Option WireResult :=
  match c9SecondRun with
  | .ok (o, _) => some o.payload
  | .error _ => none

def c9SecondExecCount : Option Nat :=
  match c9SecondRun with
  | .ok (o, _) => some o.execCount
  | .error _ => none

/-- Counterexample to C9: with the same key `"k"` but a different
session id (`"s2"` instead of `"s1"`), the second invocation executes
no agent at all and replays the first invocation's stored payload
(whose `sessionId` is still `"s1"`), contradicting the claim that a
different session id forces a re-execution. -/
theorem idempotency_not_session_scoped_counterexample :
    c9SecondExecCount = some 0 ∧
    c9SecondPayload = c9FirstPayload ∧
    (c9SecondPayload.map WireResult.sessionId) = some (some "s1") := by
  refine ⟨rfl, ?_, rfl⟩
  have h : c9SecondPayload = c9FirstPayload := by
    simp only [c9SecondPayload, c9FirstPayload, c9SecondRun, c9FirstRun]
    rfl
  exact h

/-- C9 as the code actually behaves: the JSONL backend keys idempotency
records by the key alone, so any second invocation with the same truthy
key replays the first invocation's stored payload and executes no
agent, regardless of the session or agent id it supplies. -/
theorem idempotency_keyed_by_key_alone (deps : HDeps) (p1 p2 : RunParams)
    (ids1 ids2 : GenIds) (now1 now2 : String) (st : PState) (k a1 a2 : String)
    (hres1 : resolveAgentId deps.registry p1.agentId = .ok a1)
    (hres2 : resolveAgentId deps.registry p2.agentId = .ok a2)
    (hkey1 : p1.idempotencyKey = some k) (hkey2 : p2.idempotencyKey = some k)
    (hk : ¬ k = "")
    (hfresh : st.idem.lookup k = none) :
    ∃ o1 st1 o2 st2,
      handleAgentRun deps p1 ids1 now1 st = .ok (o1, st1) ∧
      handleAgentRun deps p2 ids2 now2 st1 = .ok (o2, st2) ∧
      o2.payload = o1.payload ∧
      o2.execCount = 0 := by
  have htk1 : truthyKey p1.idempotencyKey = some k := by simp [truthyKey, hkey1, hk]
  have htk2 : truthyKey p2.idempotencyKey = some k := by simp [truthyKey, hkey2, hk]
  have h1 := handleAgentRun_fresh deps p1 ids1 now1 st k a1 hres1 htk1 hfresh
  set pr := runFreshAgent deps p1 a1 (p1.sessionId.getD ids1.genSessionId)
    ids1.runId ids1.turnId (some k) now1 st with hpr
  have hidem := runFreshAgent_writes_idem deps p1 a1
    (p1.sessionId.getD ids1.genSessionId) ids1.runId ids1.turnId k now1 st
  rw [← hpr] at hidem
  have hlookup : pr.2.idem.lookup k
      = some { idempotencyKey := k, sessionId := p1.sessionId.getD ids1.genSessionId,
               runId := ids1.runId, status := (deps.behavior a1).statusString,
               result := wireResultToRecord pr.1.payload,
               agentId := a1, createdAt := now1 } := by
    rw [hidem]; simp [List.lookup]
  have h2 := handleAgentRun_replay deps p2 ids2 now2 pr.2 k a2 _ hres2 htk2 hlookup
  exact ⟨pr.1, pr.2, _, pr.2, h1, h2, by simp [toAgentRunWireResult_roundtrip], rfl⟩

/-- Witness for the amended C9 at a concrete pair of sessions. -/
theorem idempotency_keyed_by_key_alone_witness :
    ∃ o1 st1 o2 st2,
      handleAgentRun fixDeps c9ParamsSession1 fixIds1 "t1" {} = .ok (o1, st1) ∧
      handleAgentRun fixDeps c9ParamsSession2 fixIds2 "t2" st1 = .ok (o2, st2) ∧
      o2.payload = o1.payload ∧
      o2.execCount = 0 :=
  idempotency_keyed_by_key_alone fixDeps c9ParamsSession1 c9ParamsSession2
    fixIds1 fixIds2 "t1" "t2" {} "k" "a" "a" rfl rfl rfl rfl (by decide) rfl

/-! ## Agent execution engine (`ConversationalAgent.runLoop`)

The turn loop of `src/agent/conversational.ts`, embedded as a
fuel-indexed recursion: the `while (currentTurn < maxTurns)` loop
advances `currentTurn` by exactly one on every `continue`, so the fuel
is `maxTurns - currentTurn`.  The model-calling capability is a
function from the index of the call (how many stream invocations were
made before it) to either a collected `LLMResult` (the
`response.completed` payload gathered by `streamAndCollect`) or a
thrown error (an `error` event, or the stream ending without
`response.completed`).  Tools collapse `parameters.parse` plus
`execute` plus result stringification into one `run` function whose
`Except.error` is a thrown exception.  Only the after-run hooks can
influence control flow; they are embedded as functions of the number of
previous after-run evaluations. -/

/-- The 8-field usage accumulator (costs kept as naturals; no claim
involves their arithmetic beyond field-wise addition). -/
structure Usage where
  inputTokens : Nat := 0
  outputTokens : Nat := 0
  cachedInputTokens : Nat := 0
  totalTokens : Nat := 0
  inputCost : Nat := 0
  outputCost : Nat := 0
  cacheCost : Nat := 0
  totalCost : Nat := 0
deriving DecidableEq, Repr

/-- `emptyUsage` from `src/agent/conversational.ts`. -/
def emptyUsage : Usage := {}

/-- `addUsage` from `src/agent/conversational.ts` (field-wise sum). -/
def addUsage (target source : Usage) : Usage :=
  { inputTokens := target.inputTokens + source.inputTokens
    outputTokens := target.outputTokens + source.outputTokens
    cachedInputTokens := target.cachedInputTokens + source.cachedInputTokens
    totalTokens := target.totalTokens + source.totalTokens
    inputCost := target.inputCost + source.inputCost
    outputCost := target.outputCost + source.outputCost
    cacheCost := target.cacheCost + source.cacheCost
    totalCost := target.totalCost + source.totalCost }

/-- An `LLMMessage` (roles used by the engine). -/
inductive EngMsg where
  | user (content : String)
  | assistant (content : String)
  | tool (content : String) (toolCallId : String) (name : String)
deriving DecidableEq, Repr

/-- An `LLMToolCall` before execution; `arguments` is the JSON
serialization of the arguments object. -/
structure ToolCallM where
  id : String
  name : String
  arguments : String
deriving DecidableEq, Repr

/-- An `LLMToolResult`. -/
structure ToolResultM where
  toolCallId : String
  content : String
  isError : Bool := false
deriving DecidableEq, Repr

/-- A registered tool: `run` collapses `parameters.parse(args)` and
`execute(parsed)` and the final stringification; `Except.error m` is a
thrown exception whose message is `m`. -/
structure ToolDef where
  name : String
  run : String → Except String String

/-- Errors that abort a run of the engine. -/
inductive EngError where
  | llm (msg : String)
  | toolExecution (msg : String) (toolName : String)
  | maxTurnsExceeded (msg : String) (maxTurns completedTurns : Nat)
deriving DecidableEq, Repr

/-- The `LLMResult` collected from one model call. -/
structure LLMResultM where
  content : Option String
  toolCalls : List ToolCallM
  usage : Usage := {}
  responseId : Option String := none
deriving DecidableEq, Repr

inductive TurnType where
  | next_action
  | finish
deriving DecidableEq, Repr

/-- A `TurnResult` appended to the context's turn list. -/
structure TurnRec where
  turnType : TurnType
  result : LLMResultM
  index : Nat
deriving DecidableEq, Repr

inductive AfterRunAction where
  | done
  | rerun
deriving DecidableEq, Repr

/-- `runAfterRunHooks` from `src/agent/hooks.ts`: hooks run in order;
the first returning `rerun` stops evaluation; otherwise `done`.  Each
hook receives the number of previous after-run evaluations in the run
(the environment its closure would observe). -/
def runAfterRunHooks (hooks : List (Nat → AfterRunAction)) (n : Nat) :
    AfterRunAction :=
  match hooks with
  | [] => .done
  | h :: rest =>
      match h n with
      | .rerun => .rerun
      | .done => runAfterRunHooks rest n

/-- The engine's injected options (`AgentOptions`): conversation
history is constant during the loop because the engine writes to it
only at the point of return. -/
structure EngineConfig where
  instructions : String := ""
  history : List EngMsg := []
  tools : List ToolDef := []
  onStart : List ToolDef := []
  onBeforeComplete : List ToolDef := []
  afterRunHooks : List (Nat → AfterRunAction) := []
  maxTurns : Nat := 10
  client : Nat → Except String LLMResultM

/-- `executeEnforcedTools`: drain the queue in order, executing each
tool with empty arguments; failures are skipped silently; each success
appends a synthetic user message. -/
def executeEnforcedTools (queue : List ToolDef) : List EngMsg :=
  queue.filterMap fun t =>
    match t.run "\x7b\x7d" with
    | .ok content => some (.user ("[" ++ t.name ++ "]: " ++ content))
    | .error _ => none

/-- The assistant-side summary line of `toolCallsToMessages`. -/
def toolCallSummary (toolCalls : List ToolCallM) : String :=
  String.intercalate "\n"
    (toolCalls.map fun tc =>
      "[tool_call: " ++ tc.name ++ "(" ++ tc.arguments ++ ")]")

/-- `toolCallsToMessages` from `src/llm/tool/message-converter.ts`,
applied to calls whose results are attached: one assistant message
(content prepended when truthy) followed by one tool message per
result. -/
def toolCallsToMessages (pairs : List (ToolCallM × ToolResultM))
    (assistantContent : Option String) : List EngMsg :=
  let summary := toolCallSummary (pairs.map Prod.fst)
  let head : EngMsg := .assistant
    (match assistantContent with
     | some c => if c.isEmpty then summary else c ++ "\n" ++ summary
     | none => summary)
  head :: pairs.map fun p => .tool p.2.content p.2.toolCallId p.1.name

/-- The tool map of `ToolExecutor` (`new Map(...)`: on duplicate names
the last registration wins). -/
def toolMapGet (tools : List ToolDef) (name : String) : Option ToolDef :=
  tools.foldl (fun acc t => if t.name = name then some t else acc) none

/-- `ToolExecutor.execute` from `src/llm/tool/executor.ts`: an unknown
tool yields an error-flagged result; a thrown parse/execute exception
is re-raised as a `ToolExecutionError` carrying the tool's name. -/
def toolExecute (tools : List ToolDef) (tc : ToolCallM) :
    Except EngError ToolResultM :=
  match toolMapGet tools tc.name with
  | none => .ok { toolCallId := tc.id,
                  content := "Tool not found: " ++ tc.name, isError := true }
  | some t =>
      match t.run tc.arguments with
      | .ok s => .ok { toolCallId := tc.id, content := s }
      | .error m => .error (.toolExecution
          ("Tool \"" ++ tc.name ++ "\" failed: " ++ m) tc.name)

/-- `ConversationalAgent.executeToolCalls`: strictly sequential; each
successful call is attached and pushed before the next runs, and a
raised `ToolExecutionError` aborts immediately, keeping the results
pushed so far. -/
def executeToolCalls (tools : List ToolDef) :
    List ToolCallM → List (ToolCallM × ToolResultM) × Option EngError
  | [] => ([], none)
  | tc :: rest =>
      match toolExecute tools tc with
      | .error e => ([], some e)
      | .ok r =>
          let (pairs, err) := executeToolCalls tools rest
          ((tc, r) :: pairs, err)

/-- The mutable state of one loop invocation, plus the run's observable
trace: the context's turn list and tool-call list, the number of
invocations of `client.stream`, and the exact message list passed to
each model call. -/
structure LoopSt where
  currentMessages : List EngMsg
  queue : List ToolDef
  onBeforeCompleteConsumed : Bool := false
  totalUsage : Usage := {}
  turns : List TurnRec := []
  toolCallResults : List (ToolCallM × ToolResultM) := []
  invocations : Nat := 0
  callInputs : List (List EngMsg) := []
  afterRunCount : Nat := 0

/-- The `AgentResult` of a run. -/
structure AgentResultM where
  content : Option String
  toolCalls : List (ToolCallM × ToolResultM)
  usage : Usage
  responseId : Option String
  raw : LLMResultM

/-- One spin of the `while` loop per unit of fuel;
`currentTurn + fuel = maxTurns` throughout, and exhausted fuel is the
`currentTurn == maxTurns` exit throwing `MaxTurnsExceededError`. -/
def runLoopAux (cfg : EngineConfig) :
    Nat → Nat → LoopSt → Except EngError AgentResultM × LoopSt
  | 0, currentTurn, st =>
      (.error (.maxTurnsExceeded
        ("Agent exceeded maximum turns (" ++ toString cfg.maxTurns ++ ")")
        cfg.maxTurns currentTurn), st)
  | fuel + 1, currentTurn, st =>
      let enforcedMsgs := executeEnforcedTools st.queue
      let st := { st with currentMessages := st.currentMessages ++ enforcedMsgs,
                          queue := [] }
      let input := cfg.history ++ st.currentMessages
      let callIdx := st.invocations
      let st := { st with invocations := callIdx + 1,
                          callInputs := st.callInputs ++ [input] }
      match cfg.client callIdx with
      | .error m => (.error (.llm m), st)
      | .ok r =>
          let st := { st with totalUsage := addUsage st.totalUsage r.usage }
          let turn : TurnRec :=
            { turnType := if r.toolCalls.isEmpty then .finish else .next_action,
              result := r, index := currentTurn }
          let st := { st with turns := st.turns ++ [turn] }
          if r.toolCalls.isEmpty then
            if !st.onBeforeCompleteConsumed && !cfg.onBeforeComplete.isEmpty then
              runLoopAux cfg fuel (currentTurn + 1)
                { st with queue := st.queue ++ cfg.onBeforeComplete,
                          onBeforeCompleteConsumed := true }
            else
              let agentResult : AgentResultM :=
                { content := r.content, toolCalls := st.toolCallResults,
                  usage := st.totalUsage, responseId := r.responseId, raw := r }
              let action := runAfterRunHooks cfg.afterRunHooks st.afterRunCount
              let st := { st with afterRunCount := st.afterRunCount + 1 }
              match action with
              | .rerun => runLoopAux cfg fuel (currentTurn + 1) st
              | .done => (.ok agentResult, st)
          else
            let (pairs, err) := executeToolCalls cfg.tools r.toolCalls
            let st := { st with toolCallResults := st.toolCallResults ++ pairs }
            match err with
            | some e => (.error e, st)
            | none =>
                runLoopAux cfg fuel (currentTurn + 1)
                  { st with currentMessages :=
                      st.currentMessages ++ toolCallsToMessages pairs r.content }

/-- `ConversationalAgent.runLoop`: scratch messages seeded with the
user input, the enforced queue with the `onStart` pipeline. -/
def runLoop (cfg : EngineConfig) (input : String) :
    Except EngError AgentResultM × LoopSt :=
  runLoopAux cfg cfg.maxTurns 0
    { currentMessages := [.user input], queue := cfg.onStart }

/-- Number of extra model invocations not matched by a turn record: one
exactly when the run aborted because a model call itself failed. -/
def llmFailurePenalty (o : Except EngError AgentResultM) : Nat :=
  match o with
  | .error (.llm _) => 1
  | _ => 0

/-- A raised tool error is always a `ToolExecutionError`. -/
theorem toolExecute_error_shape (tools : List ToolDef) (tc : ToolCallM)
    (e : EngError) (h : toolExecute tools tc = .error e) :
    ∃ msg tn, e = .toolExecution msg tn := by
  unfold toolExecute at h
  cases hm : toolMapGet tools tc.name with
  | none => simp only [hm] at h; exact absurd h (by simp)
  | some t =>
      simp only [hm] at h
      cases hr : t.run tc.arguments with
      | ok s => simp only [hr] at h; exact absurd h (by simp)
      | error m =>
          simp only [hr, Except.error.injEq] at h
          exact ⟨_, _, h.symm⟩

/-- An error escaping `executeToolCalls` is a `ToolExecutionError`. -/
theorem executeToolCalls_error_shape (tools : List ToolDef) :
    ∀ l pairs e, executeToolCalls tools l = (pairs, some e) →
      ∃ msg tn, e = .toolExecution msg tn := by
  intro l
  induction l with
  | nil => intro pairs e h; simp [executeToolCalls] at h
  | cons tc rest ihl =>
      intro pairs e h
      simp only [executeToolCalls] at h
      cases ht : toolExecute tools tc with
      | error e2 =>
          simp only [ht, Prod.mk.injEq, Option.some.injEq] at h
          exact h.2 ▸ toolExecute_error_shape tools tc e2 ht
      | ok r =>
          rcases hrest : executeToolCalls tools rest with ⟨pairs2, err2⟩
          simp only [ht, hrest, Prod.mk.injEq] at h
          exact ihl pairs2 e (by rw [hrest, h.2])

/-- Loop invariant: entering an iteration, the number of model
invocations equals `currentTurn`, and the recorded turn indices are
exactly `0, 1, ..., currentTurn - 1`. -/
theorem runLoopAux_turn_count (cfg : EngineConfig) (fuel : Nat) :
    ∀ ct st, st.invocations = ct →
      st.turns.map TurnRec.index = List.range ct →
      (runLoopAux cfg fuel ct st).2.turns.map TurnRec.index
          = List.range ((runLoopAux cfg fuel ct st).2.turns.length) ∧
      (runLoopAux cfg fuel ct st).2.invocations
          = (runLoopAux cfg fuel ct st).2.turns.length
            + llmFailurePenalty (runLoopAux cfg fuel ct st).1 := by
  induction fuel with
  | zero =>
      intro ct st hinv hidx
      have hlen : st.turns.length = ct := by
        have := congrArg List.length hidx
        simpa using this
      simp [runLoopAux, hidx, hlen, hinv, llmFailurePenalty]
  | succ fuel ih =>
      intro ct st hinv hidx
      have hlen : st.turns.length = ct := by
        have := congrArg List.length hidx
        simpa using this
      simp only [runLoopAux, hinv]
      cases hc : cfg.client ct with
      | error m =>
          simp [hidx, hlen, hinv, llmFailurePenalty]
      | ok r =>
          simp only []
          by_cases hemp : r.toolCalls.isEmpty
          · simp only [hemp, if_true]
            by_cases hbc : (!st.onBeforeCompleteConsumed
                && !cfg.onBeforeComplete.isEmpty) = true
            · simp only [hbc, if_true]
              exact ih (ct + 1) _ (by simp)
                (by simp [hidx, List.range_succ])
            · simp only [Bool.not_eq_true] at hbc
              simp only [hbc, Bool.false_eq_true, if_false]
              cases hact : runAfterRunHooks cfg.afterRunHooks st.afterRunCount with
              | rerun =>
                  exact ih (ct + 1) _ (by simp)
                    (by simp [hidx, List.range_succ])
              | done =>
                  simp [hidx, hlen, List.range_succ, llmFailurePenalty]
          · simp only [hemp, Bool.false_eq_true, if_false]
            rcases hE : executeToolCalls cfg.tools r.toolCalls with ⟨pairs, err⟩
            cases err with
            | some e =>
                obtain ⟨msg, tn, he⟩ :=
                  executeToolCalls_error_shape cfg.tools r.toolCalls pairs e hE
                subst he
                simp [hE, hidx, hlen, List.range_succ, llmFailurePenalty]
            | none =>
                simp only [hE]
                exact ih (ct + 1) _ (by simp)
                  (by simp [hidx, List.range_succ])

/-- C3 (amended).  For every engine run, the recorded turn indices are
exactly `0, 1, ..., n-1` in append order (strictly increasing from 0),
and the number of turn records equals the number of model invocations
except when the run aborts because a model call itself failed, in which
case the failing invocation contributes no turn record. -/
theorem engine_turns_match_model_calls (cfg : EngineConfig) (input : String) :
    (runLoop cfg input).2.turns.map TurnRec.index
        = List.range ((runLoop cfg input).2.turns.length) ∧
    (runLoop cfg input).2.invocations
        = (runLoop cfg input).2.turns.length
          + llmFailurePenalty (runLoop cfg input).1 :=
  runLoopAux_turn_count cfg cfg.maxTurns 0 _ rfl rfl

/-- A configuration whose model call always fails. -/
def failingClientCfg : EngineConfig :=
  { client := fun _ => .error "model stream failed" }

/-- Counterexample to C3 as stated: when the model call itself fails,
the run aborts after one model call with zero turn records, so the turn
count does not equal the number of model calls made. -/
theorem engine_turns_model_calls_counterexample :
    ¬ ((runLoop failingClientCfg "hi").2.turns.length
        = (runLoop failingClientCfg "hi").2.invocations) := by decide

/-- When every model call requests tool calls and every requested tool
executes without a raised error, the loop consumes all its fuel and
throws `MaxTurnsExceededError` with `completedTurns` equal to the
`currentTurn` it reached. -/
theorem runLoopAux_all_tool_calls (cfg : EngineConfig) (fuel : Nat) :
    ∀ ct st, st.invocations = ct →
      (∀ k, ∃ r pairs, cfg.client k = .ok r ∧ r.toolCalls.isEmpty = false ∧
        executeToolCalls cfg.tools r.toolCalls = (pairs, none)) →
      (runLoopAux cfg fuel ct st).1
        = .error (.maxTurnsExceeded
            ("Agent exceeded maximum turns (" ++ toString cfg.maxTurns ++ ")")
            cfg.maxTurns (ct + fuel)) := by
  induction fuel with
  | zero => intro ct st hinv h; simp [runLoopAux]
  | succ fuel ih =>
      intro ct st hinv h
      obtain ⟨r, pairs, hc, hne, hE⟩ := h ct
      rw [← hinv] at hc
      simp only [runLoopAux, hc, hne, hE, Bool.false_eq_true, if_false]
      have harith : ct + (fuel + 1) = ct + 1 + fuel := by omega
      rw [harith]
      apply ih (ct + 1) _ _ h
      simp [hinv]

/-- Whether a run outcome is a max-turns failure with the given
`maxTurns` and `completedTurns` fields. -/
def failsWithMaxTurns (o : Except EngError AgentResultM) (mt ct : Nat) : Bool :=
  match o with
  | .error (.maxTurnsExceeded _ a b) => a == mt && b == ct
  | _ => false

/-- `maxTurns = 3`, every model call requests one call of a registered
tool that throws. -/
def throwingToolCfg : EngineConfig :=
  { maxTurns := 3,
    tools := [{ name := "bad", run := fun _ => .error "boom" }],
    client := fun _ => .ok
      { content := none,
        toolCalls := [{ id := "1", name := "bad", arguments := "\x7b\x7d" }] } }

/-- Counterexample to C4 as stated: a run with `maxTurns = 3` in which
every model call's result carries a tool call, but whose requested tool
throws — the run fails with a `ToolExecutionError`, not with a
max-turns-exceeded error. -/
theorem engine_maxturns_counterexample :
    failsWithMaxTurns (runLoop throwingToolCfg "go").1 3 3 = false ∧
    (runLoop throwingToolCfg "go").1
      = .error (.toolExecution "Tool \"bad\" failed: boom" "bad") := by
  exact ⟨rfl, rfl⟩

/-- C4 (amended).  With `maxTurns = 3`, when every model call delivers
a result carrying at least one tool call and every requested tool call
executes without a raised error, the run fails with a
max-turns-exceeded error whose `maxTurns` and `completedTurns` fields
both equal 3. -/
theorem engine_maxturns_exhaustion (cfg : EngineConfig) (input : String)
    (hmax : cfg.maxTurns = 3)
    (h : ∀ k, ∃ r pairs, cfg.client k = .ok r ∧ r.toolCalls.isEmpty = false ∧
      executeToolCalls cfg.tools r.toolCalls = (pairs, none)) :
    (runLoop cfg input).1
      = .error (.maxTurnsExceeded "Agent exceeded maximum turns (3)" 3 3) := by
  have := runLoopAux_all_tool_calls cfg cfg.maxTurns 0
    { currentMessages := [.user input], queue := cfg.onStart } rfl h
  rw [runLoop, this, hmax]
  rfl

/-- `maxTurns = 3`, every model call requests one call of a registered
tool that succeeds. -/
def loopingToolCfg : EngineConfig :=
  { maxTurns := 3,
    tools := [{ name := "t", run := fun _ => .ok "done" }],
    client := fun _ => .ok
      { content := none,
        toolCalls := [{ id := "1", name := "t", arguments := "\x7b\x7d" }] } }

/-- Witness for the amended C4. -/
theorem engine_maxturns_exhaustion_witness :
    (runLoop loopingToolCfg "go").1
      = .error (.maxTurnsExceeded "Agent exceeded maximum turns (3)" 3 3) :=
  engine_maxturns_exhaustion loopingToolCfg "go" rfl
    (fun _ => ⟨_, _, rfl, rfl, rfl⟩)

@[simp] theorem executeEnforcedTools_nil : executeEnforcedTools [] = [] := rfl

/-- C5.  With no tool calls, no enforced-tool pipeline, and a single
after-run hook that returns `rerun` on its first evaluation and `done`
on its second: exactly two model calls are made, the run's result is
the second call's content, and the scratch message list is not reset
between the calls — both model calls receive exactly the history plus
the seeded user message. -/
theorem engine_afterrun_rerun (cfg : EngineConfig) (input : String)
    (hooks : Nat → AfterRunAction) (r0 r1 : LLMResultM)
    (h0 : cfg.onStart = []) (hbc : cfg.onBeforeComplete = [])
    (hh : cfg.afterRunHooks = [hooks])
    (hh0 : hooks 0 = .rerun) (hh1 : hooks 1 = .done)
    (hmax : 2 ≤ cfg.maxTurns)
    (hc0 : cfg.client 0 = .ok r0) (hc1 : cfg.client 1 = .ok r1)
    (he0 : r0.toolCalls = []) (he1 : r1.toolCalls = []) :
    (runLoop cfg input).2.invocations = 2 ∧
    (∃ res, (runLoop cfg input).1 = .ok res ∧ res.content = r1.content) ∧
    (runLoop cfg input).2.callInputs
      = [cfg.history ++ [.user input], cfg.history ++ [.user input]] := by
  obtain ⟨m, hm⟩ : ∃ m, cfg.maxTurns = m + 2 := ⟨cfg.maxTurns - 2, by omega⟩
  have hstep : m + 2 = (m + 1) + 1 := rfl
  rw [runLoop, hm, hstep]
  simp [runLoopAux, h0, hbc, hh, hh0, hh1, hc0, hc1, he0, he1,
    runAfterRunHooks]

/-- An after-run hook that asks for a rerun exactly once. -/
def rerunOnceHook : Nat → AfterRunAction :=
  fun n => if n = 0 then .rerun else .done

/-- No tools, one rerun-once after-run hook, distinct contents per
model call. -/
def rerunCfg : EngineConfig :=
  { afterRunHooks := [rerunOnceHook],
    client := fun k =>
      if k = 0 then .ok { content := some "first", toolCalls := [] }
      else .ok { content := some "second", toolCalls := [] } }

/-- Witness for C5. -/
theorem engine_afterrun_rerun_witness :
    (runLoop rerunCfg "q").2.invocations = 2 ∧
    (∃ res, (runLoop rerunCfg "q").1 = .ok res ∧
      res.content = some "second") ∧
    (runLoop rerunCfg "q").2.callInputs
      = [[EngMsg.user "q"], [EngMsg.user "q"]] :=
  engine_afterrun_rerun rerunCfg "q" rerunOnceHook
    { content := some "first", toolCalls := [] }
    { content := some "second", toolCalls := [] }
    rfl rfl rfl rfl rfl (by decide) rfl rfl rfl rfl

/-- Executing `pre ++ tc :: post` where every call in `pre` succeeds
and `tc` raises: the raised error escapes. -/
theorem executeToolCalls_append_error (tools : List ToolDef)
    (tc : ToolCallM) (post : List ToolCallM) (e : EngError)
    (htc : toolExecute tools tc = .error e) :
    ∀ pre, (executeToolCalls tools pre).2 = none →
      (executeToolCalls tools (pre ++ tc :: post)).2 = some e := by
  intro pre
  induction pre with
  | nil => intro _; simp [executeToolCalls, htc]
  | cons a rest ihp =>
      intro hpre
      simp only [executeToolCalls, List.cons_append] at hpre ⊢
      cases ha : toolExecute tools a with
      | error e2 => simp [ha] at hpre
      | ok ra =>
          simp only [ha] at hpre ⊢
          exact ihp hpre

/-- C6.  At any point of any run: when a model call requests tool
calls, the earlier calls of the batch execute cleanly, and one of them
names a registered tool whose parameter validation or execution raises,
the exception is re-raised as a `ToolExecutionError` whose `toolName`
is the tool call's name — not returned as an error-flagged result — and
that error propagates out of the run loop, aborting the run. -/
theorem engine_tool_error_aborts (cfg : EngineConfig) (fuel ct : Nat)
    (st : LoopSt) (r : LLMResultM) (pre post : List ToolCallM)
    (tc : ToolCallM) (t : ToolDef) (m : String)
    (hc : cfg.client st.invocations = .ok r)
    (hsplit : r.toolCalls = pre ++ tc :: post)
    (hpre : (executeToolCalls cfg.tools pre).2 = none)
    (ht : toolMapGet cfg.tools tc.name = some t)
    (hrun : t.run tc.arguments = .error m) :
    (runLoopAux cfg (fuel + 1) ct st).1
      = .error (.toolExecution
          ("Tool \"" ++ tc.name ++ "\" failed: " ++ m) tc.name) := by
  have htc : toolExecute cfg.tools tc
      = .error (.toolExecution
          ("Tool \"" ++ tc.name ++ "\" failed: " ++ m) tc.name) := by
    simp [toolExecute, ht, hrun]
  have hemp : r.toolCalls.isEmpty = false := by simp [hsplit]
  have herr := executeToolCalls_append_error cfg.tools tc post _ htc pre hpre
  rw [← hsplit] at herr
  simp only [runLoopAux, hc, hemp, Bool.false_eq_true, if_false]
  rcases hE : executeToolCalls cfg.tools r.toolCalls with ⟨pairs, er⟩
  rw [hE] at herr
  simp only at herr
  subst herr
  simp

/-- Witness for C6: the first turn of a concrete run requests the
registered throwing tool `"bad"`. -/
theorem engine_tool_error_aborts_witness :
    (runLoopAux throwingToolCfg 3 0
        { currentMessages := [EngMsg.user "go"], queue := [] }).1
      = .error (.toolExecution "Tool \"bad\" failed: boom" "bad") :=
  engine_tool_error_aborts throwingToolCfg 2 0
    { currentMessages := [EngMsg.user "go"], queue := [] }
    { content := none,
      toolCalls := [{ id := "1", name := "bad", arguments := "\x7b\x7d" }] }
    [] []
    { id := "1", name := "bad", arguments := "\x7b\x7d" }
    { name := "bad", run := fun _ => .error "boom" } "boom"
    rfl rfl rfl rfl rfl

/-! ## In-process MCP transport (request/response correlation)

`InProcessMcpTransport` from the Hono mounting module.  The pending map
(`Map<string | number, PendingRequest>`) is embedded as a unique-keyed
association list with `Map.set` / `Map.get` / `Map.delete` operations;
each pending promise is identified by a numeric future tag.  Message
ids are strings (the `string | number` union does not matter for
correlation).  `onmessage` dispatch into the protocol server is
external to the transport and not modelled; `send` is the server's
write-back path. -/

/-- A JSON-RPC message at the transport boundary: `id`/`method` may be
absent, `body` stands for the rest of the message. -/
structure TMsg where
  id : Option String
  method : Option String
  body : String
deriving DecidableEq, Repr

/-- `Map.get`: the pending map has at most one entry per key. -/
def mapGet : List (String × Nat) → String → Option Nat
  | [], _ => none
  | p :: rest, k => if p.1 = k then some p.2 else mapGet rest k

/-- `Map.set` (overwrites any existing entry for the key). -/
def mapSet (l : List (String × Nat)) (k : String) (v : Nat) :
    List (String × Nat) :=
  (k, v) :: l.filter fun p => p.1 != k

/-- `Map.delete`. -/
def mapDelete (l : List (String × Nat)) (k : String) : List (String × Nat) :=
  l.filter fun p => p.1 != k

theorem mapGet_set_self (l : List (String × Nat)) (k : String) (v : Nat) :
    mapGet (mapSet l k v) k = some v := by
  simp [mapGet, mapSet]

theorem mapGet_filter_ne (k j : String) (h : j ≠ k) :
    ∀ l : List (String × Nat),
      mapGet (l.filter fun p => p.1 != k) j = mapGet l j := by
  intro l
  induction l with
  | nil => rfl
  | cons p rest ihl =>
      by_cases hpk : p.1 = k
      · have hkj : ¬ k = j := fun e => h e.symm
        simp [List.filter_cons, hpk, mapGet, hkj, ihl]
      · simp [List.filter_cons, hpk, mapGet, ihl]

theorem mapGet_set_other (l : List (String × Nat)) (k j : String) (v : Nat)
    (h : j ≠ k) : mapGet (mapSet l k v) j = mapGet l j := by
  have hkj : ¬ k = j := fun e => h e.symm
  simp [mapSet, mapGet, hkj, mapGet_filter_ne k j h l]

theorem mapGet_delete_self (l : List (String × Nat)) (k : String) :
    mapGet (mapDelete l k) k = none := by
  induction l with
  | nil => rfl
  | cons p rest ihl =>
      by_cases hpk : p.1 = k
      · simpa [mapDelete, List.filter_cons, hpk] using ihl
      · simpa [mapDelete, List.filter_cons, hpk, mapGet] using ihl

theorem mapGet_delete_other (l : List (String × Nat)) (k j : String)
    (h : j ≠ k) : mapGet (mapDelete l k) j = mapGet l j :=
  mapGet_filter_ne k j h l

/-- Transport state: pending entries keyed by message id (value: the
tag of the promise created for that request), the subscriber set, and a
counter supplying fresh promise tags. -/
structure TransportState where
  pending : List (String × Nat) := []
  subscribers : List Nat := []
  nextFuture : Nat := 0
deriving DecidableEq, Repr

/-- What one inbound `send` did. -/
inductive TEffect where
  | resolveFuture (tag : Nat) (msg : TMsg)
  | dropResponse
  | broadcast (subs : List Nat) (msg : TMsg)
deriving DecidableEq, Repr

/-- `InProcessMcpTransport.send`: a message with an id and no method is
a response — resolve and delete the matching pending entry, or drop it
unmatched; anything else is fanned out to the subscribers (listener
exceptions isolated). -/
def transportSend (st : TransportState) (msg : TMsg) :
    TransportState × TEffect :=
  match msg.id, msg.method with
  | some i, none =>
      match mapGet st.pending i with
      | some tag =>
          ({ st with pending := mapDelete st.pending i }, .resolveFuture tag msg)
      | none => (st, .dropResponse)
  | _, _ => (st, .broadcast st.subscribers msg)

/-- `InProcessMcpTransport.request`: create a promise (a fresh tag),
record the pending entry keyed by the message id before dispatch, and
hand the message to the server (`onmessage`, external here). -/
def transportRequest (st : TransportState) (msg : TMsg) :
    TransportState × Nat :=
  let tag := st.nextFuture
  match msg.id with
  | some i =>
      ({ st with pending := mapSet st.pending i tag, nextFuture := tag + 1 }, tag)
  | none => ({ st with nextFuture := tag + 1 }, tag)

/-- `InProcessMcpTransport.close`: reject every still-pending entry and
clear pending map and subscriber set; returns the rejected tags. -/
def transportClose (st : TransportState) : TransportState × List Nat :=
  ({ pending := [], subscribers := [], nextFuture := st.nextFuture },
   st.pending.map Prod.snd)

/-- C7.  Issue requests A then B (distinct fresh ids), deliver the
responses in reverse order: the id-B response resolves B's future and
the id-A response resolves A's future (distinct futures, not swapped);
each pending entry is removed exactly once, on its first matching
response — a duplicate id-B response after the first is dropped. -/
theorem transport_out_of_order_correlation (st : TransportState)
    (reqA reqB respA respB : TMsg) (idA idB : String)
    (hAB : idA ≠ idB)
    (hReqA : reqA.id = some idA) (hReqB : reqB.id = some idB)
    (hRespA : respA.id = some idA) (hRespAm : respA.method = none)
    (hRespB : respB.id = some idB) (hRespBm : respB.method = none)
    (hA : mapGet st.pending idA = none) (hB : mapGet st.pending idB = none) :
    (transportSend (transportRequest (transportRequest st reqA).1 reqB).1 respB).2
        = .resolveFuture (transportRequest (transportRequest st reqA).1 reqB).2 respB ∧
    (transportSend
        (transportSend (transportRequest (transportRequest st reqA).1 reqB).1 respB).1
        respA).2
        = .resolveFuture (transportRequest st reqA).2 respA ∧
    (transportRequest st reqA).2
        ≠ (transportRequest (transportRequest st reqA).1 reqB).2 ∧
    mapGet (transportSend
        (transportRequest (transportRequest st reqA).1 reqB).1 respB).1.pending idB
        = none ∧
    (transportSend
        (transportSend (transportRequest (transportRequest st reqA).1 reqB).1 respB).1
        respB).2
        = .dropResponse ∧
    mapGet (transportSend
        (transportSend (transportRequest (transportRequest st reqA).1 reqB).1 respB).1
        respA).1.pending idA
        = none := by
  have h1 : mapGet (mapSet (mapSet st.pending idA st.nextFuture) idB
      (st.nextFuture + 1)) idB = some (st.nextFuture + 1) := mapGet_set_self ..
  have h2 : mapGet (mapDelete (mapSet (mapSet st.pending idA st.nextFuture) idB
      (st.nextFuture + 1)) idB) idA = some st.nextFuture := by
    rw [mapGet_delete_other _ _ _ hAB, mapGet_set_other _ _ _ _ hAB,
      mapGet_set_self]
  have h3 : mapGet (mapDelete (mapSet (mapSet st.pending idA st.nextFuture) idB
      (st.nextFuture + 1)) idB) idB = none := mapGet_delete_self ..
  have h4 : mapGet (mapDelete (mapDelete (mapSet (mapSet st.pending idA
      st.nextFuture) idB (st.nextFuture + 1)) idB) idA) idA = none :=
    mapGet_delete_self ..
  have h5 : st.nextFuture ≠ st.nextFuture + 1 := by omega
  simp only [transportRequest, hReqA, hReqB, transportSend, hRespA, hRespAm,
    hRespB, hRespBm, h1, h2, h3, h4]
  simp [h5, h3, h4]

def tReqA : TMsg := { id := some "A", method := some "tools/call", body := "reqA" }

def tReqB : TMsg := { id := some "B", method := some "tools/call", body := "reqB" }

def tRespA : TMsg := { id := some "A", method := none, body := "respA" }

def tRespB : TMsg := { id := some "B", method := none, body := "respB" }

/-- Witness for C7 on a fresh transport with ids `"A"` and `"B"`. -/
theorem transport_out_of_order_correlation_witness :
    (transportSend (transportRequest (transportRequest {} tReqA).1 tReqB).1 tRespB).2
        = .resolveFuture (transportRequest (transportRequest {} tReqA).1 tReqB).2 tRespB ∧
    (transportSend
        (transportSend (transportRequest (transportRequest {} tReqA).1 tReqB).1 tRespB).1
        tRespA).2
        = .resolveFuture (transportRequest {} tReqA).2 tRespA ∧
    (transportRequest {} tReqA).2
        ≠ (transportRequest (transportRequest {} tReqA).1 tReqB).2 ∧
    mapGet (transportSend
        (transportRequest (transportRequest {} tReqA).1 tReqB).1 tRespB).1.pending "B"
        = none ∧
    (transportSend
        (transportSend (transportRequest (transportRequest {} tReqA).1 tReqB).1 tRespB).1
        tRespB).2
        = .dropResponse ∧
    mapGet (transportSend
        (transportSend (transportRequest (transportRequest {} tReqA).1 tReqB).1 tRespB).1
        tRespA).1.pending "A"
        = none :=
  transport_out_of_order_correlation {} tReqA tReqB tRespA tRespB "A" "B"
    (by decide) rfl rfl rfl rfl rfl rfl rfl rfl

/-! ## HTTP/SSE notification filter

`extractNotificationToken` and `shouldForwardNotification` from the
Hono mounting module, and their composition inside
`sseResponseFromRequest`: the subscription callback forwards an
incoming message to the open stream exactly when
`shouldForwardNotification(incoming, extractNotificationToken(request))`
holds.  JSON values are embedded as `JVal`; a JS property that is
absent (`undefined`) is `none`, a present `null` is `some .null`.
`isRecord` is `typeof v === "object" && v !== null`, which is also true
of arrays; a string-keyed property access on an array yields
`undefined`. -/

inductive JVal where
  | null
  | bool (b : Bool)
  | num (n : Int)
  | str (s : String)
  | arr (elems : List JVal)
  | obj (fields : List (String × JVal))

/-- A JSON-RPC message seen as a `Record<string, unknown>`. -/
def JObj := List (String × JVal)

/-- Property access on an arbitrary value: only plain objects have
(string-keyed) own properties here. -/
def JVal.getField : JVal → String → Option JVal
  | .obj fields, k => fields.lookup k
  | _, _ => none

/-- `isRecord`: `typeof value === "object" && value !== null`. -/
def JVal.isRecord : JVal → Bool
  | .obj _ => true
  | .arr _ => true
  | _ => false

/-- JS `a ?? b` on possibly-absent values. -/
def jvCoalesce (a b : Option JVal) : Option JVal :=
  match a with
  | none => b
  | some .null => b
  | some v => some v

/-- `isNotification`: has a `method` property and no `id` property. -/
def isNotificationJ (m : JObj) : Bool :=
  (List.lookup "method" m).isSome && (List.lookup "id" m).isNone

/-- `isRequest`: has both `method` and `id`. -/
def isRequestJ (m : JObj) : Bool :=
  (List.lookup "method" m).isSome && (List.lookup "id" m).isSome

/-- `extractNotificationToken`: only `tools/call` requests whose
tool-call arguments carry a non-empty string under `notification_token`
or `notificationToken` produce a filter token. -/
def extractNotificationToken (m : JObj) : Option String :=
  match List.lookup "method" m with
  | some (.str s) =>
      if s = "tools/call" then
        match List.lookup "params" m with
        | some params =>
            if params.isRecord then
              match params.getField "arguments" with
              | some args =>
                  if args.isRecord then
                    match jvCoalesce (args.getField "notification_token")
                        (args.getField "notificationToken") with
                    | some (.str t) => if t.length > 0 then some t else none
                    | _ => none
                  else none
              | none => none
            else none
        | none => none
      else none
  | _ => none

/-- `shouldForwardNotification`: non-notifications are never forwarded;
with no (or a falsy) token every notification passes; otherwise the
notification's own token must be a string equal to the filter token. -/
def shouldForwardNotification (m : JObj) (notificationToken : Option String) :
    Bool :=
  if !(isNotificationJ m) then false
  else
    match notificationToken with
    | none => true
    | some t =>
        if t.isEmpty then true
        else
          match List.lookup "params" m with
          | some p =>
              if p.isRecord then
                match jvCoalesce (p.getField "notification_token")
                    (p.getField "notificationToken") with
                | some (.str s) => s == t
                | _ => false
              else false
          | none => false

/-- The messages an open, uncancelled SSE stream forwards out of the
emitted sequence (the subscription callback of
`sseResponseFromRequest`). -/
def sseForwardedNotifications (request : JObj) (emitted : List JObj) :
    List JObj :=
  emitted.filter fun m =>
    shouldForwardNotification m (extractNotificationToken request)

/-- The notification's own token field: its `params.notification_token`
(falling back to `params.notificationToken`) when that is a string. -/
def notificationTokenField (m : JObj) : Option String :=
  match List.lookup "params" m with
  | some p =>
      if p.isRecord then
        match jvCoalesce (p.getField "notification_token")
            (p.getField "notificationToken") with
        | some (.str s) => some s
        | _ => none
      else none
  | none => none

theorem shouldForward_some_iff (m : JObj) (T : String)
    (hnotif : isNotificationJ m = true) (hT : T ≠ "") :
    (shouldForwardNotification m (some T) = true
      ↔ notificationTokenField m = some T) := by
  have hTE : T.isEmpty = false := by
    rw [Bool.eq_false_iff, ne_eq, String.isEmpty_iff]
    exact hT
  simp only [shouldForwardNotification, hnotif, Bool.not_true,
    Bool.false_eq_true, if_false, hTE, notificationTokenField]
  cases hp : List.lookup "params" m with
  | none => simp
  | some p =>
      by_cases hrec : p.isRecord = true
      · simp only [hrec, if_true]
        cases hco : jvCoalesce (p.getField "notification_token")
            (p.getField "notificationToken") with
        | none => simp
        | some v =>
            cases v <;> simp [beq_iff_eq]
      · simp [hrec]

/-- C8.  For an SSE stream opened for a `tools/call` request whose
tool-call arguments carry `notification_token = T` (a non-empty
string), an emitted notification is forwarded if and only if its own
token field equals `T`, whatever other notifications are emitted
around it; and for a request carrying no token, every emitted
notification is forwarded. -/
theorem sse_notification_token_filter :
    (∀ (req : JObj) (T : String) (params args : List (String × JVal))
        (msgs : List JObj) (m : JObj),
      T ≠ "" →
      List.lookup "method" req = some (.str "tools/call") →
      List.lookup "params" req = some (.obj params) →
      List.lookup "arguments" params = some (.obj args) →
      List.lookup "notification_token" args = some (.str T) →
      m ∈ msgs → isNotificationJ m = true →
      (m ∈ sseForwardedNotifications req msgs
        ↔ notificationTokenField m = some T)) ∧
    (∀ (req : JObj) (msgs : List JObj) (m : JObj),
      extractNotificationToken req = none →
      m ∈ msgs → isNotificationJ m = true →
      m ∈ sseForwardedNotifications req msgs) := by
  constructor
  · intro req T params args msgs m hT hmethod hp ha htok hmem hnotif
    have hlen : 0 < T.length := by
      rcases T with ⟨data⟩
      cases data with
      | nil => exact absurd rfl hT
      | cons c cs => simp [String.length]
    have hex : extractNotificationToken req = some T := by
      simp [extractNotificationToken, hmethod, hp, ha, htok, JVal.getField,
        JVal.isRecord, jvCoalesce, hlen]
    simp only [sseForwardedNotifications, List.mem_filter, hex]
    rw [← shouldForward_some_iff m T hnotif hT]
    simp [hmem]
  · intro req msgs m hex hmem hnotif
    simp only [sseForwardedNotifications, List.mem_filter, hex]
    exact ⟨hmem, by simp [shouldForwardNotification, hnotif]⟩

def wReqArgs : List (String × JVal) :=
  [("message", .str "hi"), ("notification_token", .str "T")]

def wReqParams : List (String × JVal) :=
  [("name", .str "agent.run"), ("arguments", .obj wReqArgs)]

def wReq : JObj :=
  [("jsonrpc", .str "2.0"), ("id", .str "1"),
   ("method", .str "tools/call"), ("params", .obj wReqParams)]

def wNotifT : JObj :=
  [("method", .str "agent/stream-response"),
   ("params", .obj [("notification_token", .str "T"),
                    ("type", .str "agent.text_delta")])]

def wNotifU : JObj :=
  [("method", .str "agent/stream-response"),
   ("params", .obj [("notification_token", .str "U"),
                    ("type", .str "agent.text_delta")])]

def wMsgs : List JObj := [wNotifT, wNotifU]

/-- Witness for C8: under token `"T"`, the `"T"` notification is
forwarded and the concurrently emitted `"U"` notification is not. -/
theorem sse_notification_token_filter_witness :
    wNotifT ∈ sseForwardedNotifications wReq wMsgs ∧
    ¬ (wNotifU ∈ sseForwardedNotifications wReq wMsgs) := by
  constructor
  · exact (sse_notification_token_filter.1 wReq "T" wReqParams wReqArgs wMsgs
      wNotifT (by decide) rfl rfl rfl rfl (by simp [wMsgs]) rfl).mpr rfl
  · intro hmem
    have h := (sse_notification_token_filter.1 wReq "T" wReqParams wReqArgs
      wMsgs wNotifU (by decide) rfl rfl rfl rfl (by simp [wMsgs]) rfl).mp hmem
    exact absurd h (by decide)

/-- C10.  A notification-token filter exists only for a request whose
`method` is exactly `"tools/call"` and whose tool-call arguments carry
a non-empty string under `notification_token` or `notificationToken`
(clause 1); any other method yields no filter (clause 2), an
empty-string or non-string token value yields no filter (clause 3),
and with no filter the SSE stream forwards every notification
unfiltered (clause 4). -/
theorem notification_filter_scope :
    (∀ (req : JObj) (t : String), extractNotificationToken req = some t →
      List.lookup "method" req = some (.str "tools/call") ∧ t ≠ "" ∧
      ∃ params args : JVal,
        List.lookup "params" req = some params ∧ params.isRecord = true ∧
        params.getField "arguments" = some args ∧ args.isRecord = true ∧
        jvCoalesce (args.getField "notification_token")
          (args.getField "notificationToken") = some (.str t)) ∧
    (∀ req : JObj, List.lookup "method" req ≠ some (.str "tools/call") →
      extractNotificationToken req = none) ∧
    (∀ (req : JObj) (params args v : JVal),
      List.lookup "params" req = some params →
      params.getField "arguments" = some args →
      jvCoalesce (args.getField "notification_token")
        (args.getField "notificationToken") = some v →
      (v = .str "" ∨ ∀ s, v ≠ .str s) →
      extractNotificationToken req = none) ∧
    (∀ req : JObj, extractNotificationToken req = none →
      ∀ (msgs : List JObj) (m : JObj), m ∈ msgs → isNotificationJ m = true →
        m ∈ sseForwardedNotifications req msgs) := by
  have part1 : ∀ (req : JObj) (t : String),
      extractNotificationToken req = some t →
      List.lookup "method" req = some (.str "tools/call") ∧ t ≠ "" ∧
      ∃ params args : JVal,
        List.lookup "params" req = some params ∧ params.isRecord = true ∧
        params.getField "arguments" = some args ∧ args.isRecord = true ∧
        jvCoalesce (args.getField "notification_token")
          (args.getField "notificationToken") = some (.str t) := by
    intro req t hex
    unfold extractNotificationToken at hex
    cases hm : List.lookup "method" req with
    | none => simp only [hm] at hex; exact absurd hex (by simp)
    | some v =>
        cases v with
        | str s =>
            simp only [hm] at hex
            by_cases hs : s = "tools/call"
            · rw [if_pos hs] at hex
              cases hp : List.lookup "params" req with
              | none => simp only [hp] at hex; exact absurd hex (by simp)
              | some params =>
                  simp only [hp] at hex
                  by_cases hrec : params.isRecord = true
                  · rw [if_pos hrec] at hex
                    cases ha : params.getField "arguments" with
                    | none => simp only [ha] at hex; exact absurd hex (by simp)
                    | some args =>
                        simp only [ha] at hex
                        by_cases harec : args.isRecord = true
                        · rw [if_pos harec] at hex
                          cases hco : jvCoalesce
                              (args.getField "notification_token")
                              (args.getField "notificationToken") with
                          | none =>
                              simp only [hco] at hex
                              exact absurd hex (by simp)
                          | some v2 =>
                              simp only [hco] at hex
                              cases v2 with
                              | str u =>
                                  have hex2 : (if u.length > 0 then some u
                                      else none) = some t := hex
                                  by_cases hu : u.length > 0
                                  · rw [if_pos hu] at hex2
                                    have hut : u = t := Option.some.inj hex2
                                    subst hut
                                    refine ⟨by rw [hs], ?_,
                                      params, args, rfl, hrec, ha, harec, hco⟩
                                    intro h0
                                    rw [h0] at hu
                                    exact absurd hu (by decide)
                                  · rw [if_neg hu] at hex2
                                    exact absurd hex2 (by simp)
                              | null => exact Option.noConfusion (show (none : Option String) = some t from hex)
                              | bool b => exact Option.noConfusion (show (none : Option String) = some t from hex)
                              | num n => exact Option.noConfusion (show (none : Option String) = some t from hex)
                              | arr es => exact Option.noConfusion (show (none : Option String) = some t from hex)
                              | obj fs => exact Option.noConfusion (show (none : Option String) = some t from hex)
                        · rw [if_neg harec] at hex
                          exact absurd hex (by simp)
                  · rw [if_neg hrec] at hex
                    exact absurd hex (by simp)
            · rw [if_neg hs] at hex
              exact absurd hex (by simp)
        | null => simp only [hm] at hex; exact absurd hex (by simp)
        | bool b => simp only [hm] at hex; exact absurd hex (by simp)
        | num n => simp only [hm] at hex; exact absurd hex (by simp)
        | arr es => simp only [hm] at hex; exact absurd hex (by simp)
        | obj fs => simp only [hm] at hex; exact absurd hex (by simp)
  refine ⟨part1, ?_, ?_, ?_⟩
  · intro req hne
    cases hex : extractNotificationToken req with
    | none => rfl
    | some t => exact absurd (part1 req t hex).1 hne
  · intro req params args v hp ha hco hv
    cases hex : extractNotificationToken req with
    | none => rfl
    | some t =>
        obtain ⟨-, hT, params2, args2, hp2, -, ha2, -, hco2⟩ := part1 req t hex
        have hpp : params2 = params := Option.some.inj (hp2.symm.trans hp)
        subst hpp
        have haa : args2 = args := Option.some.inj (ha2.symm.trans ha)
        subst haa
        have hvv : v = .str t := Option.some.inj (hco.symm.trans hco2)
        rcases hv with hv | hv
        · rw [hv] at hvv
          exact absurd (JVal.str.inj hvv).symm hT
        · exact absurd hvv (hv t)
  · intro req hex msgs m hmem hnotif
    simp only [sseForwardedNotifications, List.mem_filter, hex]
    exact ⟨hmem, by simp [shouldForwardNotification, hnotif]⟩

def wReqOther : JObj := [("id", .str "2"), ("method", .str "agent.list")]

/-- Witness for C10: a request with method `"agent.list"` yields no
filter, and both token-carrying notifications are forwarded to it. -/
theorem notification_filter_scope_witness :
    extractNotificationToken wReqOther = none ∧
    wNotifT ∈ sseForwardedNotifications wReqOther wMsgs ∧
    wNotifU ∈ sseForwardedNotifications wReqOther wMsgs := by
  have hne : List.lookup "method" wReqOther ≠ some (.str "tools/call") := by
    intro h
    exact absurd (JVal.str.inj (Option.some.inj h)) (by decide)
  have hnone := notification_filter_scope.2.1 wReqOther hne
  exact ⟨hnone,
    notification_filter_scope.2.2.2 wReqOther hnone wMsgs wNotifT
      (by simp [wMsgs]) rfl,
    notification_filter_scope.2.2.2 wReqOther hnone wMsgs wNotifU
      (by simp [wMsgs]) rfl⟩
